import Mathlib

/-!
Verification of the permission-resolution engine and HTTP dispatch of
`server.py` (simple-http-file-server).

The Python code is shallowly embedded: dictionaries become association
lists (first match wins, keys kept unique by in-place update), the
permission trie `PathConfig` becomes a nested inductive, and the
request handlers become pure functions from an explicit filesystem
model and request to a status code and new filesystem.  External
collaborators (base64 decoding, `translate_path`/`relpath`, the `find`
enumeration, the JSON serializer) are passed in as parameters or given
as inputs, exactly at the interface the source uses them.  Python
string primitives (`split`, `startswith`, `strip`, slicing) are
re-implemented over the character list of a `String` so that every
definition evaluates inside the kernel.
-/

set_option autoImplicit false

namespace SHFS

/-! ### Python string primitives -/

/-- Python `s.split(sep)` for a one-character separator: every
occurrence of the separator is a cut point, and the result always has
one more element than there are separators (so `"".split("/") = [""]`
and `"a//b".split("/") = ["a", "", "b"]`). -/
def splitCharList (sep : Char) : List Char → List (List Char)
  | [] => [[]]
  | c :: rest =>
    let r := splitCharList sep rest
    if c = sep then [] :: r
    else
      match r with
      | [] => [[c]]
      | h :: t => (c :: h) :: t

/-- Python `path.split("/")`. -/
def split_slash (s : String) : List String :=
  (splitCharList '/' s.data).map (fun l => String.mk l)

/-- Python `txt.split(":")`. -/
def split_colon (s : String) : List String :=
  (splitCharList ':' s.data).map (fun l => String.mk l)

/-- Python `s.startswith(pre)`. -/
def str_startsWith (pre s : String) : Bool :=
  pre.data.isPrefixOf s.data

/-- Python `s[n:]` (slicing counts code points). -/
def str_drop (n : Nat) (s : String) : String :=
  String.mk (s.data.drop n)

/-- The whitespace characters removed by Python `str.strip()`. -/
def isSpaceChar (c : Char) : Bool :=
  c = ' ' || c = '\t' || c = '\n' || c = '\r' || c = '\x0b' || c = '\x0c'

/-- Python `s.strip()`. -/
def str_strip (s : String) : String :=
  String.mk (((s.data.dropWhile isSpaceChar).reverse.dropWhile isSpaceChar).reverse)

/-- Code-point lexicographic order on character lists, as used by
Python `sorted()` on strings. -/
def charListLe : List Char → List Char → Bool
  | [], _ => true
  | _ :: _, [] => false
  | a :: as, b :: bs => if a = b then charListLe as bs else decide (a.val < b.val)

/-- Python `a <= b` on strings. -/
def strLe (a b : String) : Bool :=
  charListLe a.data b.data

/-- Insert a string into an already sorted list. -/
def insertSorted (s : String) : List String → List String
  | [] => [s]
  | t :: rest => if strLe s t then s :: t :: rest else t :: insertSorted s rest

/-- Python `sorted(l)` for a list of strings. -/
def sortStrings (l : List String) : List String :=
  l.foldr insertSorted []

/-! ### Data model: the permission trie and AuthConfig -/

/-- Update an association list at a key, replacing the first binding of
that key in place or appending a new binding at the end; this mirrors
assignment into a Python dict whose keys are unique. -/
def updateAssoc {α : Type} (l : List (String × α)) (k : String) (v : α) :
    List (String × α) :=
  match l with
  | [] => [(k, v)]
  | (k₁, v₁) :: rest =>
    if k₁ = k then (k, v) :: rest else (k₁, v₁) :: updateAssoc rest k v

/-- One node of the permission trie: `PathConfig` from server.py.
`perms` maps a user name (or the wildcard) to the list of permission
flags from the JSON config; `children` maps a path segment to the child
node. -/
inductive PathConfig : Type where
  | mk : (filename : String) → (perms : List (String × List String)) →
      (children : List (String × PathConfig)) → PathConfig
deriving Repr

/-- Segment stored at this node. -/
def PathConfig.filename : PathConfig → String
  | .mk f _ _ => f

/-- Per-user permission entries at this node. -/
def PathConfig.perms : PathConfig → List (String × List String)
  | .mk _ p _ => p

/-- Child nodes, keyed by path segment. -/
def PathConfig.children : PathConfig → List (String × PathConfig)
  | .mk _ _ c => c

/-- AuthConfig from server.py: the trie root plus the user/password
table (the log file is ignored by the model). -/
structure AuthConfig : Type where
  root : PathConfig
  users : List (String × String)
deriving Repr

/-- The freshly constructed AuthConfig: empty root node, no users. -/
def AuthConfig.init : AuthConfig :=
  { root := PathConfig.mk "" [] [], users := [] }

/-- AuthConfig.check_perm: an explicit entry for `user` decides by
membership of `perm`; otherwise a wildcard entry decides; otherwise no
decision. -/
def check_perm (perms : List (String × List String)) (user perm : String) :
    Option Bool :=
  match perms.lookup user with
  | some ps => some (ps.contains perm)
  | none =>
    match perms.lookup "*" with
    | some ps => some (ps.contains perm)
    | none => none

/-- AuthConfig.combine_perm: a present decision overwrites the
accumulator, an absent one leaves it. -/
def combine_perm (prev : Bool) (next : Option Bool) : Bool :=
  match next with
  | none => prev
  | some b => b

/-- The descent loop of AuthConfig.check_path_for_perm: at each segment,
stop (returning the accumulator) if there is no matching child, else
move to the child and fold its decision into the accumulator. -/
def walk (perm user : String) : PathConfig → Bool → List String → Bool
  | _, result, [] => result
  | p, result, i :: rest =>
    match p.children.lookup i with
    | none => result
    | some c =>
      walk perm user c (combine_perm result (check_perm c.perms user perm)) rest

/-- The path-resolution part of check_path_for_perm, after the user /
password gate: split on every slash (no segment is discarded), seed the
accumulator with the root decision over `true`, then descend. -/
def resolve_path (cfg : AuthConfig) (path perm user : String) : Bool :=
  walk perm user cfg.root
    (combine_perm true (check_perm cfg.root.perms user perm))
    (split_slash path)

/-- AuthConfig.check_path_for_perm: an unknown user is replaced by the
wildcard; a known user with a password other than the stored one is
rejected outright; otherwise the path is resolved.  `psw` is `none`
when the caller supplied Python `None` (the anonymous identity). -/
def check_path_for_perm (cfg : AuthConfig) (path perm user : String)
    (psw : Option String) : Bool :=
  match cfg.users.lookup user with
  | none => resolve_path cfg path perm "*"
  | some stored =>
    if psw = some stored then resolve_path cfg path perm user else false

/-- The node-building recursion of AuthConfig.add_path_config: walk or
create nodes along the (already filtered) segment list and overwrite the
user's entry at the terminal node. -/
def addPath : PathConfig → List String → String → List String → PathConfig
  | p, [], user, perms =>
    PathConfig.mk p.filename (updateAssoc p.perms user perms) p.children
  | p, i :: rest, user, perms =>
    let child :=
      match p.children.lookup i with
      | none => PathConfig.mk i [] []
      | some c => c
    PathConfig.mk p.filename p.perms
      (updateAssoc p.children i (addPath child rest user perms))

/-- AuthConfig.add_path_config: split the rule path on slashes,
discard empty, `.` and `..` segments, and insert the rule. -/
def add_path_config (cfg : AuthConfig) (path user : String)
    (perms : List String) : AuthConfig :=
  let path_items := (split_slash path).filter (fun p => !(["", ".", ".."].contains p))
  { cfg with root := addPath cfg.root path_items user perms }

/-! ### Derived views of the resolution algorithm, used to state claims -/

/-- The chain of trie nodes actually visited when resolving a segment
list: the current node, then — as long as the next segment has a
matching child — the nodes below it. -/
def visitedNodes : PathConfig → List String → List PathConfig
  | p, [] => [p]
  | p, i :: rest =>
    match p.children.lookup i with
    | none => [p]
    | some c => p :: visitedNodes c rest

/-- The explicit decisions (per-user or wildcard) found along the
visited chain, shallowest first. -/
def decisionsAlong (p : PathConfig) (user perm : String) (items : List String) :
    List Bool :=
  (visitedNodes p items).filterMap (fun n => check_perm n.perms user perm)

/-- The identity used for rule lookup by check_path_for_perm: the user
itself when it is a key of the user table, the wildcard otherwise. -/
def eff_user (cfg : AuthConfig) (user : String) : String :=
  match cfg.users.lookup user with
  | none => "*"
  | some _ => user

/-- Whether the user/password gate at the top of check_path_for_perm
lets the query through to path resolution. -/
def auth_gate_passes (cfg : AuthConfig) (user : String) (psw : Option String) :
    Bool :=
  match cfg.users.lookup user with
  | none => true
  | some stored => psw == some stored

/-- Well-formedness of a trie: every child key is a real segment (never
empty, `.` or `..`).  Every tree built by add_path_config from the
initial config satisfies this, because add_path_config filters those
segments out before inserting. -/
inductive WF : PathConfig → Prop where
  | mk : ∀ p : PathConfig,
      (∀ x, x ∈ p.children → (!(["", ".", ".."].contains x.1)) = true) →
      (∀ x, x ∈ p.children → WF x.2) →
      WF p

/-! ### HTTP layer -/

/-- What the filesystem holds at a path. -/
inductive FSEntry : Type where
  | file
  | directory
deriving DecidableEq, Repr

/-- Filesystem model: entries keyed by relative path, plus the set of
paths whose removal raises an OSError (modelling `os.remove` /
`shutil.rmtree` failure). -/
structure FileSystem : Type where
  entries : List (String × FSEntry)
  removeFails : List String
deriving Repr

/-- A parsed request, as the handlers see it: `relPath` stands for
`os.path.relpath(self.translate_path(self.path))` (the working
directory is the storage root, so the same string addresses the
filesystem model), and `authHeader` is the raw value of the
Authorization header, when present. -/
structure Request : Type where
  relPath : String
  authHeader : Option String
deriving Repr

/-- HTTP methods the server implements. -/
inductive Method : Type where
  | GET
  | HEAD
  | PUT
  | DELETE
deriving DecidableEq, Repr

/-- Entry filter for `shutil.rmtree`: drops the directory itself and
everything below it. -/
def outsideTree (path : String) (e : String × FSEntry) : Bool :=
  e.1 != path && !((path.data ++ ['/']).isPrefixOf e.1.data)

/-- SimpleHTTPFileServer.do_DELETE: 404 when the path is absent, 500
when removal raises, otherwise 200 and the entry (with, for a
directory, everything below it) is removed. -/
def do_DELETE (fs : FileSystem) (path : String) : Nat × FileSystem :=
  match fs.entries.lookup path with
  | none => (404, fs)
  | some k =>
    if fs.removeFails.contains path then (500, fs)
    else
      match k with
      | .file =>
        (200, { fs with entries := fs.entries.filter (fun e => e.1 != path) })
      | .directory =>
        (200, { fs with entries := fs.entries.filter (outsideTree path) })

/-- SimpleHTTPFileServer.do_PUT: 405 when the path is an existing
directory, otherwise the body is stored as a file and 200 returned
(the Content-Length failure branch is not modelled; it also answers
405 and leaves this model's filesystem unchanged). -/
def do_PUT (fs : FileSystem) (path : String) : Nat × FileSystem :=
  match fs.entries.lookup path with
  | some .directory => (405, fs)
  | _ => (200, { fs with entries := updateAssoc fs.entries path FSEntry.file })

/-- Status code of SimpleHTTPFileServer.send_head: a directory is
redirected (301) without a trailing slash and listed (200) with one; a
file is served (200); anything else is 404. -/
def send_head_status (fs : FileSystem) (path : String) : Nat :=
  match fs.entries.lookup path with
  | some .directory => if path.data.getLast? = some '/' then 200 else 301
  | some .file => 200
  | none => 404

/-- The JSON value the directory listing serializes (only arrays of
strings occur). -/
inductive JsonValue : Type where
  | arr (elems : List String)
deriving DecidableEq, Repr

/-- A directory-listing response: status plus serialized JSON body. -/
structure ListingResponse : Type where
  status : Nat
  body : JsonValue
deriving DecidableEq, Repr

/-- SimpleHTTPFileServer.list_directory, as a function of the file list
produced by the `find . -type f` enumeration (`_list_files`): the body
is `json.dumps(files, sort_keys=True)`, and `sort_keys` only orders the
keys of dicts — a Python list is serialized element by element in its
own order, so the body is the array of `files` as given. -/
def list_directory (files : List String) : ListingResponse :=
  { status := 200, body := JsonValue.arr files }

/-- decode_http_auth_password: base64-decode (the external decoder
`b64` models `base64.b64decode` plus the UTF-8 decode; `none` stands
for either raising, which the caller check_auth_impl catches with the
same denied outcome as a `None` return), then split on `:` and demand
exactly two pieces. -/
def decode_http_auth_password (b64 : String → Option String) (txt : String) :
    Option (String × String) :=
  match b64 txt with
  | none => none
  | some t =>
    match split_colon t with
    | [u, p] => some (u, p)
    | _ => none

/-- AuthSimpleHTTPFileServer's header parsing: no header means the
anonymous identity `("*", None)`; a header not starting with `Basic `
fails; otherwise the remainder is stripped and decoded. -/
def get_auth_user_and_psw_from_header (b64 : String → Option String)
    (hdr : Option String) : Option (String × Option String) :=
  match hdr with
  | none => some ("*", none)
  | some h =>
    if str_startsWith "Basic " h then
      match decode_http_auth_password b64 (str_strip (str_drop 6 h)) with
      | none => none
      | some (u, p) => some (u, some p)
    else none

/-- AuthSimpleHTTPFileServer.check_auth_impl: deny paths escaping the
root, require the `l` permission instead of the given one for
directories, deny on unparseable credentials, else consult the
policy. -/
def check_auth_impl (b64 : String → Option String) (cfg : AuthConfig)
    (fs : FileSystem) (req : Request) (perm : String) : Bool :=
  if str_startsWith ".." req.relPath then false
  else
    match get_auth_user_and_psw_from_header b64 req.authHeader with
    | none => false
    | some (user, psw) =>
      check_path_for_perm cfg req.relPath
        (if fs.entries.lookup req.relPath = some FSEntry.directory then "l" else perm)
        user psw

/-- Dispatch of the base class SimpleHTTPFileServer: no authentication
anywhere.  Only the status code and the filesystem effect are
modelled. -/
def base_handle (fs : FileSystem) (req : Request) : Method → Nat × FileSystem
  | .GET => (send_head_status fs req.relPath, fs)
  | .HEAD => (send_head_status fs req.relPath, fs)
  | .PUT => do_PUT fs req.relPath
  | .DELETE => do_DELETE fs req.relPath

/-- Dispatch of AuthSimpleHTTPFileServer: GET/HEAD gate on `r`, PUT
gates on `w`, each answering 401 (do_AUTHHEAD) when check_auth fails;
do_DELETE is not overridden, so DELETE goes straight to the base
class. -/
def auth_handle (b64 : String → Option String) (cfg : AuthConfig)
    (fs : FileSystem) (req : Request) : Method → Nat × FileSystem
  | .GET =>
    if check_auth_impl b64 cfg fs req "r" then base_handle fs req .GET
    else (401, fs)
  | .HEAD =>
    if check_auth_impl b64 cfg fs req "r" then base_handle fs req .HEAD
    else (401, fs)
  | .PUT =>
    if check_auth_impl b64 cfg fs req "w" then base_handle fs req .PUT
    else (401, fs)
  | .DELETE => base_handle fs req .DELETE

/-! ### Startup sequence -/

/-- Observable events of setup_and_start_http_server, in program
order. -/
inductive StartupEvent : Type where
  | logged (msg : String)
  | changedDir (p : String)
  | socketCreated (host : String) (port : Nat)
  | configLoaded (p : String)
  | exited (code : Nat)
  | workersStarted (n : Nat)
deriving DecidableEq, Repr

/-- The straight-line event trace of setup_and_start_http_server: log,
chdir to the storage path, create and bind the listening socket, and
only then check the access-config path — a missing file logs and exits
with status 1, otherwise the config is loaded and the worker threads
started.  `configExists` models `os.path.exists`. -/
def setup_and_start_http_server (host : String) (port : Nat)
    (access_config_path : Option String) (configExists : String → Bool)
    (storage_path : String) (num_threads : Nat) : List StartupEvent :=
  [StartupEvent.logged "hosting server from storage path",
   StartupEvent.changedDir storage_path,
   StartupEvent.socketCreated host port] ++
  match access_config_path with
  | none =>
    [StartupEvent.logged "listening",
     StartupEvent.workersStarted num_threads]
  | some p =>
    if configExists p then
      [StartupEvent.logged "Setting up access restrictions",
       StartupEvent.configLoaded p,
       StartupEvent.logged "listening",
       StartupEvent.workersStarted num_threads]
    else
      [StartupEvent.logged "No such file",
       StartupEvent.exited 1]

/-- Recognizer for the socket-creation event. -/
def isSocketCreated : StartupEvent → Bool
  | .socketCreated _ _ => true
  | _ => false

/-- Recognizer for a non-zero process exit. -/
def isNonzeroExit : StartupEvent → Bool
  | .exited c => c != 0
  | _ => false

/-- Recognizer for the worker-thread start event. -/
def isWorkersStarted : StartupEvent → Bool
  | .workersStarted _ => true
  | _ => false

/-! ### Concrete policies and filesystems used to instantiate theorems -/

/-- Example policy: the rule at `a` removes every permission for
everyone, the deeper rule at `a/b` restores `r`. -/
def cfgChain : AuthConfig :=
  add_path_config (add_path_config AuthConfig.init "a" "*" []) "a/b" "*" ["r"]

/-- Example policy: a single rule at segment `a` granting nobody
anything. -/
def cfgSegA : AuthConfig :=
  add_path_config AuthConfig.init "a" "*" []

/-- Example policy: the wildcard appears as a literal user name in the
password table, and there are no path rules. -/
def cfgStarUser : AuthConfig :=
  { root := PathConfig.mk "" [] [], users := [("*", "pw")] }

/-- Example policy: one known user with a password and no path rules. -/
def cfgAlice : AuthConfig :=
  { root := PathConfig.mk "" [] [], users := [("alice", "secret")] }

/-- The empty filesystem. -/
def fsEmpty : FileSystem :=
  { entries := [], removeFails := [] }

end SHFS

namespace SHFS

/-! ### Association list and list helper lemmas -/

@[simp]
theorem children_mk (f : String) (pr : List (String × List String))
    (ch : List (String × PathConfig)) : (PathConfig.mk f pr ch).children = ch := rfl

@[simp]
theorem perms_mk (f : String) (pr : List (String × List String))
    (ch : List (String × PathConfig)) : (PathConfig.mk f pr ch).perms = pr := rfl

theorem lookup_mem {α : Type} {k : String} {v : α} :
    ∀ {l : List (String × α)}, l.lookup k = some v → (k, v) ∈ l := by
  intro l h
  induction l with
  | nil => simp [List.lookup] at h
  | cons hd tl ih =>
    obtain ⟨k₁, v₁⟩ := hd
    rw [List.lookup] at h
    by_cases hk : k = k₁
    · subst hk
      simp at h
      subst h
      exact List.mem_cons_self _ _
    · have hbeq : (k == k₁) = false := beq_false_of_ne hk
      rw [hbeq] at h
      exact List.mem_cons_of_mem _ (ih h)

theorem mem_updateAssoc {α : Type} {k : String} {v : α} {x : String × α} :
    ∀ {l : List (String × α)}, x ∈ updateAssoc l k v → x ∈ l ∨ x = (k, v) := by
  intro l h
  induction l with
  | nil => simp [updateAssoc] at h; right; exact h
  | cons hd tl ih =>
    obtain ⟨k₁, v₁⟩ := hd
    rw [updateAssoc] at h
    by_cases hk : k₁ = k
    · rw [if_pos hk] at h
      rcases List.mem_cons.mp h with h | h
      · right; exact h
      · left; exact List.mem_cons_of_mem _ h
    · rw [if_neg hk] at h
      rcases List.mem_cons.mp h with h | h
      · left; exact h ▸ List.mem_cons_self _ _
      · rcases ih h with h | h
        · left; exact List.mem_cons_of_mem _ h
        · right; exact h

theorem getLast?_getD_cons {α : Type} (x a : α) (l : List α) :
    (x :: l).getLast?.getD a = l.getLast?.getD x := by
  cases l with
  | nil => rfl
  | cons y t => rw [List.getLast?_cons_cons]; rfl

/-! ### The traversal computes the deepest explicit decision -/

theorem walk_eq_decisions (perm user : String) :
    ∀ (items : List String) (p : PathConfig) (acc : Bool),
      walk perm user p (combine_perm acc (check_perm p.perms user perm)) items
        = (decisionsAlong p user perm items).getLast?.getD acc := by
  intro items
  induction items with
  | nil =>
    intro p acc
    rw [walk, decisionsAlong, visitedNodes]
    cases h : check_perm p.perms user perm <;>
      simp [combine_perm, List.filterMap, h]
  | cons i rest ih =>
    intro p acc
    rw [walk, decisionsAlong, visitedNodes]
    cases hc : p.children.lookup i with
    | none =>
      cases h : check_perm p.perms user perm <;>
        simp [combine_perm, List.filterMap, h]
    | some c =>
      have hthis := ih c (combine_perm acc (check_perm p.perms user perm))
      rw [decisionsAlong] at hthis
      simp only [List.filterMap_cons]
      cases h : check_perm p.perms user perm with
      | none =>
        rw [h] at hthis
        simpa [combine_perm] using hthis
      | some b =>
        rw [h] at hthis
        rw [getLast?_getD_cons]
        simpa [combine_perm] using hthis

theorem resolve_path_eq_decisions (cfg : AuthConfig) (path perm user : String) :
    resolve_path cfg path perm user
      = (decisionsAlong cfg.root user perm (split_slash path)).getLast?.getD true := by
  rw [resolve_path, walk_eq_decisions]

theorem check_path_gate (cfg : AuthConfig) (path perm user : String)
    (psw : Option String) (h : auth_gate_passes cfg user psw = true) :
    check_path_for_perm cfg path perm user psw
      = resolve_path cfg path perm (eff_user cfg user) := by
  rw [auth_gate_passes] at h
  cases hu : cfg.users.lookup user with
  | none => simp only [check_path_for_perm, eff_user, hu]
  | some stored =>
    rw [hu] at h
    simp only [check_path_for_perm, eff_user, hu]
    rw [if_pos (eq_of_beq h)]

/-! ### Well-formedness of trees built by add_path_config -/

theorem wf_children {p : PathConfig} (h : WF p) {n : String} {c : PathConfig}
    (hm : (n, c) ∈ p.children) : WF c := by
  cases h with
  | mk _ _ hwf => exact hwf _ hm

theorem wf_lookup_special {p : PathConfig} (h : WF p) {bad : String}
    (hbad : bad = "" ∨ bad = "." ∨ bad = "..") :
    p.children.lookup bad = none := by
  cases hc : p.children.lookup bad with
  | none => rfl
  | some c =>
    exfalso
    have hm := lookup_mem hc
    cases h with
    | mk _ hkeys _ =>
      have hkey := hkeys _ hm
      rcases hbad with h1 | h1 | h1 <;> subst h1 <;> simp at hkey

theorem wf_addPath : ∀ (items : List String) (p : PathConfig)
    (user : String) (perms : List String), WF p →
    (∀ i ∈ items, (!(["", ".", ".."].contains i)) = true) →
    WF (addPath p items user perms) := by
  intro items
  induction items with
  | nil =>
    intro p user perms hwf _
    cases hwf with
    | mk _ hkeys hchild => exact WF.mk _ hkeys hchild
  | cons i rest ih =>
    intro p user perms hwf hitems
    cases hwf with
    | mk _ hkeys hchild =>
      rw [addPath]
      refine WF.mk _ ?_ ?_
      · intro x hx
        simp only [children_mk] at hx
        rcases mem_updateAssoc hx with hx | hx
        · exact hkeys x hx
        · subst hx
          exact hitems i (List.mem_cons_self _ _)
      · intro x hx
        simp only [children_mk] at hx
        rcases mem_updateAssoc hx with hx | hx
        · exact hchild x hx
        · subst hx
          refine ih _ user perms ?_ (fun j hj => hitems j (List.mem_cons_of_mem _ hj))
          cases hcl : p.children.lookup i with
          | none =>
            exact WF.mk _ (fun _ hx => absurd hx (List.not_mem_nil _))
              (fun _ hx => absurd hx (List.not_mem_nil _))
          | some c => exact hchild _ (lookup_mem hcl)

theorem wf_init : WF AuthConfig.init.root :=
  WF.mk _ (fun _ hx => absurd hx (List.not_mem_nil _))
    (fun _ hx => absurd hx (List.not_mem_nil _))

theorem wf_add_path_config (cfg : AuthConfig) (path user : String)
    (perms : List String) (h : WF cfg.root) :
    WF (add_path_config cfg path user perms).root := by
  show WF (addPath cfg.root ((split_slash path).filter
    (fun p => !(["", ".", ".."].contains p))) user perms)
  refine wf_addPath _ _ _ _ h ?_
  intro i hi
  exact (List.mem_filter.mp hi).2

theorem walk_stops_at_special (perm user bad : String)
    (hbad : bad = "" ∨ bad = "." ∨ bad = "..") :
    ∀ (pre : List String) (p : PathConfig) (acc : Bool) (rest : List String),
      WF p →
      walk perm user p acc (pre ++ bad :: rest) = walk perm user p acc (pre ++ [bad]) := by
  intro pre
  induction pre with
  | nil =>
    intro p acc rest hwf
    simp only [List.nil_append]
    simp [walk, wf_lookup_special hwf hbad]
  | cons i pre ih =>
    intro p acc rest hwf
    simp only [List.cons_append]
    rw [walk, walk]
    cases hc : p.children.lookup i with
    | none => rfl
    | some c => exact ih c _ rest (wf_children hwf (lookup_mem hc))

/-! ### Claim theorems -/

/-- C1: permission resolution follows a strict override hierarchy — for
every policy, user, permission and query path whose user/password gate
passes, whenever the chain of nodes visited along the path carries
explicit decisions (per-user or wildcard) for the effective user and
permission, check_path_for_perm returns the boolean of the deepest such
decision, regardless of what shallower nodes specify. -/
theorem check_path_for_perm_deepest_decision_wins (cfg : AuthConfig)
    (path perm user : String) (psw : Option String) (d : Bool)
    (hgate : auth_gate_passes cfg user psw = true)
    (hdeep : (decisionsAlong cfg.root (eff_user cfg user) perm
      (split_slash path)).getLast? = some d) :
    check_path_for_perm cfg path perm user psw = d := by
  rw [check_path_gate cfg path perm user psw hgate,
    resolve_path_eq_decisions, hdeep]
  rfl

/-- Witness for C1: in `cfgChain` the rule at `a` denies `r` to
everyone and the deeper rule at `a/b` grants it back; the query on
`a/b/c` follows the deepest rule and is allowed. -/
theorem check_path_for_perm_deepest_decision_wins_witness :
    check_path_for_perm cfgChain "a/b/c" "r" "bob" none = true :=
  check_path_for_perm_deepest_decision_wins cfgChain "a/b/c" "r" "bob" none true
    (by decide) (by decide)

/-- C4: a known user with a password other than the stored one is
denied on every path and permission — the gate short-circuits before
any path evaluation. -/
theorem check_path_for_perm_wrong_password_denied (cfg : AuthConfig)
    (path perm user stored : String) (psw : Option String)
    (hstored : cfg.users.lookup user = some stored)
    (hne : psw ≠ some stored) :
    check_path_for_perm cfg path perm user psw = false := by
  simp only [check_path_for_perm, hstored]
  rw [if_neg hne]

/-- Witness for C4: alice with the wrong password is denied even though
the empty rule tree would allow everything. -/
theorem check_path_for_perm_wrong_password_denied_witness :
    check_path_for_perm cfgAlice "a/b" "r" "alice" (some "wrong") = false :=
  check_path_for_perm_wrong_password_denied cfgAlice "a/b" "r" "alice" "secret"
    (some "wrong") (by decide) (by decide)

/-- C5: default-allow — when no node visited along the query path
(including the root) carries an entry applicable to the effective user,
check_path_for_perm returns true for any permission and any user that
passes the user/password gate. -/
theorem check_path_for_perm_default_allow (cfg : AuthConfig)
    (path perm user : String) (psw : Option String)
    (hgate : auth_gate_passes cfg user psw = true)
    (hnorule : ∀ n ∈ visitedNodes cfg.root (split_slash path),
      check_perm n.perms (eff_user cfg user) perm = none) :
    check_path_for_perm cfg path perm user psw = true := by
  rw [check_path_gate cfg path perm user psw hgate, resolve_path_eq_decisions]
  have hnil : decisionsAlong cfg.root (eff_user cfg user) perm (split_slash path) = [] := by
    rw [decisionsAlong, List.filterMap_eq_nil_iff]
    exact hnorule
  rw [hnil]
  rfl

/-- Witness for C5: a rule about the unrelated subtree `other` leaves a
query on `a/b` with no applicable rule anywhere, so it is allowed. -/
theorem check_path_for_perm_default_allow_witness :
    check_path_for_perm (add_path_config AuthConfig.init "other" "*" [])
      "a/b" "w" "bob" none = true :=
  check_path_for_perm_default_allow
    (add_path_config AuthConfig.init "other" "*" []) "a/b" "w" "bob" none
    (by decide) (by decide)

/-- C6: per-node lookup precedence of check_perm — an explicit entry
for the user decides by membership of the permission and shadows any
wildcard entry; without one, a wildcard entry decides; with neither,
there is no decision and combine_perm leaves the accumulated result
unchanged. -/
theorem check_perm_explicit_over_wildcard
    (perms : List (String × List String)) (user perm : String) :
    (∀ ps, perms.lookup user = some ps →
      check_perm perms user perm = some (ps.contains perm)) ∧
    (perms.lookup user = none → ∀ ps, perms.lookup "*" = some ps →
      check_perm perms user perm = some (ps.contains perm)) ∧
    (perms.lookup user = none → perms.lookup "*" = none →
      check_perm perms user perm = none ∧
      ∀ r : Bool, combine_perm r (check_perm perms user perm) = r) := by
  refine ⟨fun ps hu => ?_, fun hu ps hw => ?_, fun hu hw => ?_⟩
  · simp only [check_perm, hu]
  · simp only [check_perm, hu, hw]
  · have hn : check_perm perms user perm = none := by
      simp only [check_perm, hu, hw]
    exact ⟨hn, fun r => by rw [hn]; rfl⟩

/-- Witness for C6: at a node giving bob `{r}` and everyone else `{w}`,
bob's explicit entry wins over the wildcard, carol falls back to the
wildcard, and on a node without either entry the accumulator is kept. -/
theorem check_perm_explicit_over_wildcard_witness :
    check_perm [("bob", ["r"]), ("*", ["w"])] "bob" "w" = some false ∧
    check_perm [("bob", ["r"]), ("*", ["w"])] "carol" "w" = some true ∧
    combine_perm true (check_perm [("bob", ["r"])] "carol" "w") = true :=
  ⟨(check_perm_explicit_over_wildcard [("bob", ["r"]), ("*", ["w"])] "bob" "w").1
      ["r"] (by decide),
   (check_perm_explicit_over_wildcard [("bob", ["r"]), ("*", ["w"])] "carol" "w").2.1
      (by decide) ["w"] (by decide),
   ((check_perm_explicit_over_wildcard [("bob", ["r"])] "carol" "w").2.2
      (by decide) (by decide)).2 true⟩

/-- C2 counterexample: check_path_for_perm does not normalize the query
path the way add_path_config does.  Under the policy whose only rule
sits at segment `a`, the query `/a` (which normalization would turn
into `a`) is answered differently from the query `a`: the empty first
segment of `/a` is not a child of the root, so the traversal stops at
the root and returns the default `true`, while `a` reaches the rule and
returns `false`. -/
theorem check_path_for_perm_not_normalized_cex :
    check_path_for_perm cfgSegA "/a" "r" "bob" none
      ≠ check_path_for_perm cfgSegA "a" "r" "bob" none := by
  decide

/-- C2 amended: check_path_for_perm splits the query path on every
slash without discarding empty, `.` or `..` segments.  Because
add_path_config never creates a child under one of those names (so any
tree it builds satisfies WF), the descent stops at the first such
segment: the query answers exactly as the query path truncated at that
segment, not as the path with the segments removed. -/
theorem check_path_for_perm_stops_at_special_segment (cfg : AuthConfig)
    (path path₂ perm user : String) (psw : Option String)
    (pre rest : List String) (bad : String)
    (hwf : WF cfg.root)
    (hbad : bad = "" ∨ bad = "." ∨ bad = "..")
    (hsplit : split_slash path = pre ++ bad :: rest)
    (hsplit₂ : split_slash path₂ = pre ++ [bad]) :
    check_path_for_perm cfg path perm user psw
      = check_path_for_perm cfg path₂ perm user psw := by
  have hres : ∀ u, resolve_path cfg path perm u = resolve_path cfg path₂ perm u := by
    intro u
    rw [resolve_path, resolve_path, hsplit, hsplit₂,
      walk_stops_at_special perm u bad hbad pre cfg.root _ rest hwf]
  cases hu : cfg.users.lookup user with
  | none =>
    simp only [check_path_for_perm, hu]
    exact hres "*"
  | some stored =>
    simp only [check_path_for_perm, hu]
    by_cases hp : psw = some stored
    · rw [if_pos hp, if_pos hp]; exact hres user
    · rw [if_neg hp, if_neg hp]

/-- Witness for the amended C2: the query `/a` answers exactly as the
query truncated at its leading empty segment, namely the empty path. -/
theorem check_path_for_perm_stops_at_special_segment_witness :
    check_path_for_perm cfgSegA "/a" "r" "bob" none
      = check_path_for_perm cfgSegA "" "r" "bob" none :=
  check_path_for_perm_stops_at_special_segment cfgSegA "/a" "" "r" "bob" none
    [] ["a"] ""
    (wf_add_path_config AuthConfig.init "a" "*" [] wf_init)
    (Or.inl rfl) (by decide) (by decide)

/-- C3: DELETE is not gated by the access policy — on the
authenticating server class the response status and filesystem effect
of a DELETE are identical for every Authorization header, every base64
decoder and every loaded policy, and the 401 challenge is never issued
for DELETE. -/
theorem do_DELETE_not_gated_by_policy (b64 b64₂ : String → Option String)
    (cfg cfg₂ : AuthConfig) (fs : FileSystem) (p : String)
    (h h₂ : Option String) :
    auth_handle b64 cfg fs ⟨p, h⟩ Method.DELETE
      = auth_handle b64₂ cfg₂ fs ⟨p, h₂⟩ Method.DELETE
    ∧ (auth_handle b64 cfg fs ⟨p, h⟩ Method.DELETE).1 ≠ 401 := by
  constructor
  · rfl
  · show (do_DELETE fs p).1 ≠ 401
    rw [do_DELETE]
    cases hl : fs.entries.lookup p with
    | none => exact (by decide : (404 : Nat) ≠ 401)
    | some k =>
      split_ifs with hf
      · exact (by decide : (500 : Nat) ≠ 401)
      · cases k
        · exact (by decide : (200 : Nat) ≠ 401)
        · exact (by decide : (200 : Nat) ≠ 401)

/-- C7 counterexample: an anonymous request (no Authorization header)
does not always resolve with policy defaults — when the wildcard is
itself a key of the user table, its stored password is compared against
the absent password and the request is denied, although pure path
resolution for `*` would allow it. -/
theorem anonymous_star_user_cex :
    check_auth_impl (fun _ => none) cfgStarUser fsEmpty ⟨"x", none⟩ "r"
      ≠ resolve_path cfgStarUser "x" "r" "*" := by
  decide

/-- C7 amended: a request with no Authorization header uses the
identity `("*", None)` (no password, not the empty password); the
verdict equals policy resolution for `*` whenever `*` is not a key of
the users mapping, but when a password is stored under the literal user
name `*` it is compared against the absent password and the request is
denied. -/
theorem anonymous_identity_is_star_none (b64 : String → Option String)
    (cfg : AuthConfig) (path perm : String) :
    get_auth_user_and_psw_from_header b64 none = some ("*", none) ∧
    (cfg.users.lookup "*" = none →
      check_path_for_perm cfg path perm "*" none = resolve_path cfg path perm "*") ∧
    (∀ pw, cfg.users.lookup "*" = some pw →
      check_path_for_perm cfg path perm "*" none = false) := by
  refine ⟨rfl, fun hu => ?_, fun pw hu => ?_⟩
  · simp only [check_path_for_perm, hu]
  · simp only [check_path_for_perm, hu]
    simp

/-- Witness for the amended C7: with no `*` user the anonymous verdict
is plain path resolution; with a password stored under `*` the
anonymous request is denied. -/
theorem anonymous_identity_is_star_none_witness :
    check_path_for_perm cfgAlice "doc" "r" "*" none
      = resolve_path cfgAlice "doc" "r" "*" ∧
    check_path_for_perm cfgStarUser "doc" "r" "*" none = false :=
  ⟨(anonymous_identity_is_star_none (fun _ => none) cfgAlice "doc" "r").2.1
      (by decide),
   (anonymous_identity_is_star_none (fun _ => none) cfgStarUser "doc" "r").2.2
      "pw" (by decide)⟩

theorem check_auth_impl_header_fail (b64 : String → Option String)
    (cfg : AuthConfig) (fs : FileSystem) (req : Request) (perm : String)
    (h : get_auth_user_and_psw_from_header b64 req.authHeader = none) :
    check_auth_impl b64 cfg fs req perm = false := by
  rw [check_auth_impl]
  split_ifs <;> simp only [h]

theorem get_auth_none_of_not_basic (b64 : String → Option String) (h : String)
    (hB : str_startsWith "Basic " h = false) :
    get_auth_user_and_psw_from_header b64 (some h) = none := by
  simp [get_auth_user_and_psw_from_header, hB]

theorem get_auth_none_of_bad_colons (b64 : String → Option String)
    (h txt : String)
    (hb64 : b64 (str_strip (str_drop 6 h)) = some txt)
    (hlen : (split_colon txt).length ≠ 2) :
    get_auth_user_and_psw_from_header b64 (some h) = none := by
  by_cases hs : str_startsWith "Basic " h = true
  · simp only [get_auth_user_and_psw_from_header, hs, if_true,
      decode_http_auth_password, hb64]
    cases hsc : split_colon txt with
    | nil => rfl
    | cons a t =>
      cases t with
      | nil => rfl
      | cons b t₂ =>
        cases t₂ with
        | nil => exact absurd (by rw [hsc]; rfl) hlen
        | cons c t₃ => rfl
  · exact get_auth_none_of_not_basic b64 h (Bool.not_eq_true _ ▸ eq_false_of_ne_true hs)

/-- C8: fail-closed on malformed credentials — on every gated method, a
present Authorization header that does not start with `Basic ` yields a
401 challenge, and so does a Basic header whose base64-decoded text
does not split on `:` into exactly two pieces; neither is treated as
anonymous or as a 400. -/
theorem malformed_authorization_denied_401 (b64 : String → Option String)
    (cfg : AuthConfig) (fs : FileSystem) (p h : String) (m : Method)
    (hm : m ≠ Method.DELETE) :
    (str_startsWith "Basic " h = false →
      (auth_handle b64 cfg fs ⟨p, some h⟩ m).1 = 401) ∧
    (∀ txt, b64 (str_strip (str_drop 6 h)) = some txt →
      (split_colon txt).length ≠ 2 →
      (auth_handle b64 cfg fs ⟨p, some h⟩ m).1 = 401) := by
  have h401 : get_auth_user_and_psw_from_header b64 (some h) = none →
      (auth_handle b64 cfg fs ⟨p, some h⟩ m).1 = 401 := by
    intro hga
    have hca : ∀ pm, check_auth_impl b64 cfg fs ⟨p, some h⟩ pm = false :=
      fun pm => check_auth_impl_header_fail b64 cfg fs ⟨p, some h⟩ pm hga
    cases m with
    | GET => simp [auth_handle, hca]
    | HEAD => simp [auth_handle, hca]
    | PUT => simp [auth_handle, hca]
    | DELETE => exact absurd rfl hm
  exact ⟨fun hB => h401 (get_auth_none_of_not_basic b64 h hB),
    fun txt hb64 hlen => h401 (get_auth_none_of_bad_colons b64 h txt hb64 hlen)⟩

/-- Witness for C8: a `Negotiate` header on GET and a Basic header
decoding to colon-free text on PUT are both answered with 401. -/
theorem malformed_authorization_denied_401_witness :
    (auth_handle (fun _ => none) AuthConfig.init fsEmpty
      ⟨"doc", some "Negotiate abc"⟩ Method.GET).1 = 401 ∧
    (auth_handle (fun _ => some "nocolon") AuthConfig.init fsEmpty
      ⟨"doc", some "Basic bm9jb2xvbg=="⟩ Method.PUT).1 = 401 :=
  ⟨(malformed_authorization_denied_401 (fun _ => none) AuthConfig.init fsEmpty
      "doc" "Negotiate abc" Method.GET (by decide)).1 (by decide),
   (malformed_authorization_denied_401 (fun _ => some "nocolon") AuthConfig.init
      fsEmpty "doc" "Basic bm9jb2xvbg==" Method.PUT (by decide)).2
      "nocolon" (by decide) (by decide)⟩

/-- C9 counterexample: the body of a directory listing is not the
sorted file list — `json.dumps(files, sort_keys=True)` serializes a
Python list in its given order (`sort_keys` only orders dict keys), so
for the enumeration `["./b", "./a"]` the response differs from a 200
with the sorted array. -/
theorem list_directory_not_sorted_cex :
    list_directory ["./b", "./a"]
      ≠ { status := 200, body := JsonValue.arr (sortStrings ["./b", "./a"]) } := by
  decide

/-- C9 amended: a directory GET with trailing slash answers 200 with a
JSON body that is the enumerated list of relative file paths as an
array in enumeration order (unsorted). -/
theorem list_directory_status_and_body (files : List String) :
    (list_directory files).status = 200 ∧
    (list_directory files).body = JsonValue.arr files :=
  ⟨rfl, rfl⟩

/-- C10 counterexample: with an access-config path that does not exist,
the startup trace does exit non-zero, but a listening socket has
already been created and bound before that exit — refuting the claim
that the exit precedes any socket creation. -/
theorem startup_missing_config_socket_first_cex :
    ¬ ((setup_and_start_http_server "0.0.0.0" 8080 (some "access.json")
          (fun _ => false) "/data" 2).any isNonzeroExit = true ∧
       ((setup_and_start_http_server "0.0.0.0" 8080 (some "access.json")
          (fun _ => false) "/data" 2).takeWhile
          (fun e => !(isNonzeroExit e))).all (fun e => !(isSocketCreated e)) = true) := by
  decide

/-- C10 amended: when the access-config path is given but missing, the
process exits with a non-zero status, and this exit happens after the
listening socket is created and bound but before any worker thread
starts serving. -/
theorem startup_missing_config_exits_after_socket (host : String) (port : Nat)
    (cfgPath storage : String) (configExists : String → Bool) (n : Nat)
    (hmissing : configExists cfgPath = false) :
    (setup_and_start_http_server host port (some cfgPath) configExists
        storage n).any isNonzeroExit = true ∧
    ((setup_and_start_http_server host port (some cfgPath) configExists
        storage n).takeWhile (fun e => !(isNonzeroExit e))).any
        isSocketCreated = true ∧
    (setup_and_start_http_server host port (some cfgPath) configExists
        storage n).all (fun e => !(isWorkersStarted e)) = true := by
  simp [setup_and_start_http_server, hmissing, isNonzeroExit, isSocketCreated,
    isWorkersStarted]

/-- Witness for the amended C10: a concrete startup with a missing
config file exits non-zero after creating the socket and never starts
workers. -/
theorem startup_missing_config_exits_after_socket_witness :
    (setup_and_start_http_server "0.0.0.0" 8080 (some "access.json")
        (fun _ => false) "/data" 2).any isNonzeroExit = true ∧
    ((setup_and_start_http_server "0.0.0.0" 8080 (some "access.json")
        (fun _ => false) "/data" 2).takeWhile
        (fun e => !(isNonzeroExit e))).any isSocketCreated = true ∧
    (setup_and_start_http_server "0.0.0.0" 8080 (some "access.json")
        (fun _ => false) "/data" 2).all (fun e => !(isWorkersStarted e)) = true :=
  startup_missing_config_exits_after_socket "0.0.0.0" 8080 "access.json"
    "/data" (fun _ => false) 2 (by decide)

end SHFS

